import Mathlib

/-!
Shallow embedding of the Mankai interpreter core (interpreter.rs,
environment.rs, special_forms.rs, native_functions.rs, token.rs, parser.rs).

Modelling conventions:
* Rust `f64` numbers are modelled as `Rat`; none of the verified properties
  depends on floating-point rounding, infinities or NaN.
* The Rust function pointers stored in `MankaiObject::SpecialForm` and
  `MankaiObject::Native` are defunctionalized into the closed tags
  `SpecialFormTag` and `NativeTag`; dispatch goes through `runSpecialForm`
  and `runNative`.
* A `HashMap<String, MankaiObject>` layer is modelled as an association list
  where `insert` prepends and lookup returns the first match, which is
  observationally the map's insert/get behaviour.
* The Rust `Vec` of layers keeps the global scope first and the top of the
  stack last, iterating in reverse on lookup; here the list of layers is kept
  most-recent-first, so lookup scans from the head.
* A Rust `panic!` (a process abort, not a `RuntimeError`) is modelled by the
  distinguished outcome `EvalOutcome.fatal` or, for the environment
  primitives, by an `Option` result where `none` marks the panic.
* Recursion in `evaluate` is not structural in Rust (user-defined function
  bodies); the embedding is fuel-indexed, `EvalOutcome.fuelOut` standing for
  a computation that exceeds the given fuel (host stack exhaustion analogue).
-/

namespace Mankai

/-- interpreter.rs: a runtime error carrying a message. -/
structure RuntimeError where
  message : String
deriving DecidableEq

/-- token.rs `TokenKind`. -/
inductive TokenKind where
  | string : String → TokenKind
  | number : Rat → TokenKind
  | identifier : TokenKind
  | leftParen : TokenKind
  | rightParen : TokenKind
  | eof : TokenKind
deriving DecidableEq

/-- token.rs `Token`: a lexeme together with its kind. -/
structure Token where
  lexeme : String
  kind : TokenKind
deriving DecidableEq

/-- parser.rs `Sexp`: an atom or a list of S-expressions. -/
inductive Sexp where
  | atom : Token → Sexp
  | list : List Sexp → Sexp

mutual

/-- Decidable equality for `Sexp` (the nested inductive is out of reach of
`deriving`). -/
def Sexp.decEq : (a b : Sexp) → Decidable (a = b)
  | .atom t, .atom u =>
      if h : t = u then isTrue (by rw [h])
      else isFalse (fun hh => by cases hh; exact h rfl)
  | .atom _, .list _ => isFalse (fun h => Sexp.noConfusion h)
  | .list _, .atom _ => isFalse (fun h => Sexp.noConfusion h)
  | .list l, .list m =>
      match Sexp.decEqList l m with
      | isTrue h => isTrue (by rw [h])
      | isFalse h => isFalse (fun hh => by cases hh; exact h rfl)

/-- Decidable equality for lists of `Sexp`. -/
def Sexp.decEqList : (l m : List Sexp) → Decidable (l = m)
  | [], [] => isTrue rfl
  | [], _ :: _ => isFalse (fun h => List.noConfusion h)
  | _ :: _, [] => isFalse (fun h => List.noConfusion h)
  | a :: as_, b :: bs =>
      match Sexp.decEq a b, Sexp.decEqList as_ bs with
      | isTrue h1, isTrue h2 => isTrue (by rw [h1, h2])
      | isFalse h1, _ => isFalse (fun hh => by injection hh with hh1 hh2; exact h1 hh1)
      | _, isFalse h2 => isFalse (fun hh => by injection hh with hh1 hh2; exact h2 hh2)

end

instance : DecidableEq Sexp := Sexp.decEq

/-- Tags for the special-form handlers of special_forms.rs (defunctionalized
`MankaiObject::SpecialForm` function pointers). -/
inductive SpecialFormTag where
  | ifForm : SpecialFormTag
  | lambdaForm : SpecialFormTag
  | setForm : SpecialFormTag
  | defineForm : SpecialFormTag
  | defunForm : SpecialFormTag
deriving DecidableEq

/-- Tags for the native functions of native_functions.rs (defunctionalized
`MankaiObject::Native` function pointers). -/
inductive NativeTag where
  | sum : NativeTag
  | substract : NativeTag
  | multiplication : NativeTag
  | division : NativeTag
  | equals : NativeTag
  | greaterThan : NativeTag
  | lessThan : NativeTag
  | isBoolean : NativeTag
  | isList : NativeTag
  | isNumber : NativeTag
  | isString : NativeTag
  | and : NativeTag
  | car : NativeTag
  | cdr : NativeTag
  | cons : NativeTag
  | list : NativeTag
  | not : NativeTag
  | or : NativeTag
  | stringConcat : NativeTag
  | toStringNative : NativeTag
deriving DecidableEq

/-- interpreter.rs `MankaiObject`: the tagged runtime value. -/
inductive MankaiObject where
  | number : Rat → MankaiObject
  | string : String → MankaiObject
  | list : List MankaiObject → MankaiObject
  | bool : Bool → MankaiObject
  | specialForm : SpecialFormTag → MankaiObject
  | native : NativeTag → MankaiObject
  | function : Option String → List Token → Sexp → MankaiObject

mutual

/-- Decidable (Lean-level, structural) equality for `MankaiObject`; this is
distinct from the source's `PartialEq` value equality `mankaiEq` below. -/
def MankaiObject.decEq : (a b : MankaiObject) → Decidable (a = b)
  | .number n, .number m =>
      if h : n = m then isTrue (by rw [h])
      else isFalse (fun hh => by cases hh; exact h rfl)
  | .string s, .string t =>
      if h : s = t then isTrue (by rw [h])
      else isFalse (fun hh => by cases hh; exact h rfl)
  | .list l, .list m =>
      match MankaiObject.decEqList l m with
      | isTrue h => isTrue (by rw [h])
      | isFalse h => isFalse (fun hh => by cases hh; exact h rfl)
  | .bool b1, .bool b2 =>
      if h : b1 = b2 then isTrue (by rw [h])
      else isFalse (fun hh => by cases hh; exact h rfl)
  | .specialForm t1, .specialForm t2 =>
      if h : t1 = t2 then isTrue (by rw [h])
      else isFalse (fun hh => by cases hh; exact h rfl)
  | .native t1, .native t2 =>
      if h : t1 = t2 then isTrue (by rw [h])
      else isFalse (fun hh => by cases hh; exact h rfl)
  | .function n1 p1 b1, .function n2 p2 b2 =>
      if h : n1 = n2 ∧ p1 = p2 ∧ b1 = b2 then
        isTrue (by rw [h.1, h.2.1, h.2.2])
      else
        isFalse (fun hh => by
          injection hh with hh1 hh2 hh3; exact h ⟨hh1, hh2, hh3⟩)
  | .number _, .string _ => isFalse (fun h => MankaiObject.noConfusion h)
  | .number _, .list _ => isFalse (fun h => MankaiObject.noConfusion h)
  | .number _, .bool _ => isFalse (fun h => MankaiObject.noConfusion h)
  | .number _, .specialForm _ => isFalse (fun h => MankaiObject.noConfusion h)
  | .number _, .native _ => isFalse (fun h => MankaiObject.noConfusion h)
  | .number _, .function _ _ _ => isFalse (fun h => MankaiObject.noConfusion h)
  | .string _, .number _ => isFalse (fun h => MankaiObject.noConfusion h)
  | .string _, .list _ => isFalse (fun h => MankaiObject.noConfusion h)
  | .string _, .bool _ => isFalse (fun h => MankaiObject.noConfusion h)
  | .string _, .specialForm _ => isFalse (fun h => MankaiObject.noConfusion h)
  | .string _, .native _ => isFalse (fun h => MankaiObject.noConfusion h)
  | .string _, .function _ _ _ => isFalse (fun h => MankaiObject.noConfusion h)
  | .list _, .number _ => isFalse (fun h => MankaiObject.noConfusion h)
  | .list _, .string _ => isFalse (fun h => MankaiObject.noConfusion h)
  | .list _, .bool _ => isFalse (fun h => MankaiObject.noConfusion h)
  | .list _, .specialForm _ => isFalse (fun h => MankaiObject.noConfusion h)
  | .list _, .native _ => isFalse (fun h => MankaiObject.noConfusion h)
  | .list _, .function _ _ _ => isFalse (fun h => MankaiObject.noConfusion h)
  | .bool _, .number _ => isFalse (fun h => MankaiObject.noConfusion h)
  | .bool _, .string _ => isFalse (fun h => MankaiObject.noConfusion h)
  | .bool _, .list _ => isFalse (fun h => MankaiObject.noConfusion h)
  | .bool _, .specialForm _ => isFalse (fun h => MankaiObject.noConfusion h)
  | .bool _, .native _ => isFalse (fun h => MankaiObject.noConfusion h)
  | .bool _, .function _ _ _ => isFalse (fun h => MankaiObject.noConfusion h)
  | .specialForm _, .number _ => isFalse (fun h => MankaiObject.noConfusion h)
  | .specialForm _, .string _ => isFalse (fun h => MankaiObject.noConfusion h)
  | .specialForm _, .list _ => isFalse (fun h => MankaiObject.noConfusion h)
  | .specialForm _, .bool _ => isFalse (fun h => MankaiObject.noConfusion h)
  | .specialForm _, .native _ => isFalse (fun h => MankaiObject.noConfusion h)
  | .specialForm _, .function _ _ _ => isFalse (fun h => MankaiObject.noConfusion h)
  | .native _, .number _ => isFalse (fun h => MankaiObject.noConfusion h)
  | .native _, .string _ => isFalse (fun h => MankaiObject.noConfusion h)
  | .native _, .list _ => isFalse (fun h => MankaiObject.noConfusion h)
  | .native _, .bool _ => isFalse (fun h => MankaiObject.noConfusion h)
  | .native _, .specialForm _ => isFalse (fun h => MankaiObject.noConfusion h)
  | .native _, .function _ _ _ => isFalse (fun h => MankaiObject.noConfusion h)
  | .function _ _ _, .number _ => isFalse (fun h => MankaiObject.noConfusion h)
  | .function _ _ _, .string _ => isFalse (fun h => MankaiObject.noConfusion h)
  | .function _ _ _, .list _ => isFalse (fun h => MankaiObject.noConfusion h)
  | .function _ _ _, .bool _ => isFalse (fun h => MankaiObject.noConfusion h)
  | .function _ _ _, .specialForm _ => isFalse (fun h => MankaiObject.noConfusion h)
  | .function _ _ _, .native _ => isFalse (fun h => MankaiObject.noConfusion h)

/-- Decidable equality for lists of `MankaiObject`. -/
def MankaiObject.decEqList : (l m : List MankaiObject) → Decidable (l = m)
  | [], [] => isTrue rfl
  | [], _ :: _ => isFalse (fun h => List.noConfusion h)
  | _ :: _, [] => isFalse (fun h => List.noConfusion h)
  | a :: as_, b :: bs =>
      match MankaiObject.decEq a b, MankaiObject.decEqList as_ bs with
      | isTrue h1, isTrue h2 => isTrue (by rw [h1, h2])
      | isFalse h1, _ => isFalse (fun hh => by injection hh with hh1 hh2; exact h1 hh1)
      | _, isFalse h2 => isFalse (fun hh => by injection hh with hh1 hh2; exact h2 hh2)

end

instance : DecidableEq MankaiObject := MankaiObject.decEq

mutual

/-- interpreter.rs `impl PartialEq for MankaiObject`: value equality. -/
def MankaiObject.mankaiEq : MankaiObject → MankaiObject → Bool
  | .number n, other =>
      match other with
      | .number m => n == m
      | _ => false
  | .string s, other =>
      match other with
      | .string t => s == t
      | _ => false
  | .list l1, other =>
      match other with
      | .list l2 => MankaiObject.listMankaiEq l1 l2
      | _ => false
  | .bool b1, other =>
      match other with
      | .bool b2 => b1 == b2
      | _ => false
  | .specialForm _, _ => false
  | .native _, _ => false
  | .function _ _ _, _ => false

/-- `Vec<MankaiObject> == Vec<MankaiObject>`: element-wise equality with a
length check, as derived by Rust for `Vec`. -/
def MankaiObject.listMankaiEq : List MankaiObject → List MankaiObject → Bool
  | [], [] => true
  | a :: as_, b :: bs => a.mankaiEq b && MankaiObject.listMankaiEq as_ bs
  | _, _ => false

end

/-- Decimal digits of the fractional part of `q` (for `0 ≤ q < 1`), stopping
when the expansion terminates or after the given number of digits; models the
terminating part of Rust's shortest `f64` `Display` output. -/
def fracDigits : Nat → Rat → String
  | 0, _ => ""
  | n + 1, q =>
      if q = 0 then ""
      else
        let q10 := q * 10
        toString q10.floor ++ fracDigits n (q10 - q10.floor)

/-- Decimal rendering of a nonnegative rational. -/
def ratRenderNonneg (q : Rat) : String :=
  if q.den = 1 then toString q.num
  else toString q.floor ++ "." ++ fracDigits 17 (q - q.floor)

/-- Decimal rendering of a rational, modelling Rust's `f64` `Display` ("their
decimal form") on the terminating decimals this development evaluates. -/
def ratRender (q : Rat) : String :=
  if q < 0 then "-" ++ ratRenderNonneg (-q) else ratRenderNonneg q

mutual

/-- interpreter.rs `impl ToString for MankaiObject`: the textual rendering of
a value (including the misspelled user-defined-function label of the
source). -/
def MankaiObject.toString : MankaiObject → String
  | .number n => ratRender n
  | .string s => "\"" ++ s ++ "\""
  | .list l => "(" ++ MankaiObject.renderElems l true ++ ")"
  | .bool true => "true"
  | .bool false => "false"
  | .specialForm _ => "<special form>"
  | .native _ => "<native function>"
  | .function _ _ _ => "<user-defined fucntion>"

/-- The element loop of `to_string` for lists: a space before every element
except the first. -/
def MankaiObject.renderElems : List MankaiObject → Bool → String
  | [], _ => ""
  | x :: xs, first =>
      (if first then "" else " ") ++ x.toString ++ MankaiObject.renderElems xs false

end

/-- environment.rs: one scope layer, `HashMap<String, MankaiObject>` modelled
as an association list (insert prepends, lookup takes the first match). -/
abbrev Layer := List (String × MankaiObject)

/-- environment.rs `Environment`: the layer stack, most recent layer first
(the Rust `Vec` stores the global layer first and iterates in reverse on
lookup). -/
structure Environment where
  layers : List Layer
deriving DecidableEq

/-- environment.rs `Environment::define`: insert a binding into the topmost
layer; `none` models the `panic!("the environment has no layer!")`. -/
def Environment.define (env : Environment) (identifier : Token)
    (value : MankaiObject) : Option Environment :=
  match env.layers with
  | [] => none
  | top :: rest => some ⟨((identifier.lexeme, value) :: top) :: rest⟩

/-- environment.rs `Environment::get`: search the layers from the topmost to
the global one; an unresolved lookup is a runtime error (with the source's
misspelled "unboud symbol" message). -/
def Environment.get (env : Environment) (identifier : Token) :
    Except RuntimeError MankaiObject :=
  match env.layers.findSome? (fun layer => layer.lookup identifier.lexeme) with
  | some value => .ok value
  | none => .error ⟨"unboud symbol '" ++ identifier.lexeme ++ "'"⟩

/-- environment.rs `Environment::extend`: push a new empty layer. -/
def Environment.extend (env : Environment) : Environment :=
  ⟨[] :: env.layers⟩

/-- environment.rs `Environment::restrict`: pop the topmost layer; `none`
models the `panic!("trying to remove global scope")` taken when at most the
global layer remains. -/
def Environment.restrict (env : Environment) : Option Environment :=
  if env.layers.length > 1 then some ⟨env.layers.tail⟩ else none

/-- The straight-line sequence of `define` calls in `Environment::new`,
folded over a list of (name, value) pairs. -/
def Environment.defineAll (env : Environment) :
    List (String × MankaiObject) → Option Environment
  | [] => some env
  | (name, value) :: rest =>
      match env.define ⟨name, .identifier⟩ value with
      | some env2 => env2.defineAll rest
      | none => none

/-- The bindings installed by environment.rs `Environment::new`, in source
order. -/
def newBindings : List (String × MankaiObject) :=
  [("if!", .specialForm .ifForm),
   ("lambda!", .specialForm .lambdaForm),
   ("set!", .specialForm .setForm),
   ("+", .native .sum),
   ("-", .native .substract),
   ("*", .native .multiplication),
   ("/", .native .division),
   ("=", .native .equals),
   (">", .native .greaterThan),
   ("bool?", .native .isBoolean),
   ("list?", .native .isList),
   ("number?", .native .isNumber),
   ("string?", .native .isString),
   ("<", .native .lessThan),
   ("and", .native .and),
   ("car", .native .car),
   ("cdr", .native .cdr),
   ("cons", .native .cons),
   ("list", .native .list),
   ("not", .native .not),
   ("or", .native .or),
   ("string-concat", .native .stringConcat),
   ("to-string", .native .toStringNative),
   ("true", .bool true),
   ("false", .bool false)]

/-- environment.rs `Environment::new`: a single (global) layer populated with
the special forms, native functions and constants.  The fallback branch is
unreachable: every `define` in the sequence acts on a nonempty layer stack. -/
def Environment.new : Environment :=
  match Environment.defineAll ⟨[[]]⟩ newBindings with
  | some env => env
  | none => ⟨[[]]⟩

/-- interpreter.rs `Interpreter`: the environment plus the three reserved-name
tables populated by `Interpreter::default`. -/
structure Interpreter where
  environment : Environment
  specialForms : List String
  nativeFunctions : List String
  constants : List String
deriving DecidableEq

/-- The reserved special-form names of `Interpreter::default`. -/
def specialFormNames : List String := ["if!", "lambda!", "set!"]

/-- The reserved native-function names of `Interpreter::default`. -/
def nativeFunctionNames : List String :=
  ["+", "-", "*", "/", "=", ">", "<", "and", "car", "cdr", "cons", "bool?",
   "list?", "number?", "string?", "list", "not", "or", "string-concat",
   "to-string"]

/-- The reserved constant names of `Interpreter::default`. -/
def constantNames : List String := ["true", "false"]

/-- interpreter.rs `Interpreter::new` / `Interpreter::default`. -/
def Interpreter.new : Interpreter :=
  ⟨Environment.new, specialFormNames, nativeFunctionNames, constantNames⟩

/-- interpreter.rs `Interpreter::is_special_form`. -/
def Interpreter.isSpecialForm (s : Interpreter) (identifier : Token) : Bool :=
  s.specialForms.any (fun n => n == identifier.lexeme)

/-- interpreter.rs `Interpreter::is_native_fucntion` (source spelling). -/
def Interpreter.isNativeFucntion (s : Interpreter) (identifier : Token) : Bool :=
  s.nativeFunctions.any (fun n => n == identifier.lexeme)

/-- interpreter.rs `Interpreter::is_constant`. -/
def Interpreter.isConstant (s : Interpreter) (identifier : Token) : Bool :=
  s.constants.any (fun n => n == identifier.lexeme)

/-- The `for (i, value) in arguments.iter().enumerate()` loop of
native_functions.rs `sum`; `i` is the 0-based index of the next element. -/
def sumLoop : Nat → Rat → List MankaiObject → Except RuntimeError Rat
  | _, acc, [] => .ok acc
  | i, acc, value :: rest =>
      match value with
      | .number n => sumLoop (i + 1) (acc + n) rest
      | _ => .error ⟨toString (i + 1) ++ "-th argument of '+' must be a number!"⟩

/-- native_functions.rs `sum`: the `+` native. -/
def sum (arguments : List MankaiObject) : Except RuntimeError MankaiObject :=
  if arguments.isEmpty then .error ⟨"'+' requires at least one argument!"⟩
  else (sumLoop 0 0 arguments).map .number

/-- The `skip(1)` loop of native_functions.rs `substract`; `i` is the 0-based
index of the next element in the full argument list. -/
def substractLoop : Nat → Rat → List MankaiObject → Except RuntimeError Rat
  | _, acc, [] => .ok acc
  | i, acc, value :: rest =>
      match value with
      | .number n => substractLoop (i + 1) (acc - n) rest
      | _ => .error ⟨toString (i + 1) ++ "-th argument to '-' must be a number!"⟩

/-- native_functions.rs `substract`: the `-` native; one argument negates,
several fold left-to-right subtraction starting from the first. -/
def substract (arguments : List MankaiObject) : Except RuntimeError MankaiObject :=
  match arguments with
  | [] => .error ⟨"'-' requires at least one argument!"⟩
  | [value] =>
      match value with
      | .number n => .ok (.number (-n))
      | _ => .error ⟨"1st arguments to '-' must be a number!"⟩
  | first :: rest =>
      match first with
      | .number n => (substractLoop 1 n rest).map .number
      | _ => .error ⟨"1st arguments to '-' must be a number!"⟩

/-- The enumeration loop of native_functions.rs `multiplication`. -/
def multiplicationLoop : Nat → Rat → List MankaiObject → Except RuntimeError Rat
  | _, acc, [] => .ok acc
  | i, acc, value :: rest =>
      match value with
      | .number n => multiplicationLoop (i + 1) (acc * n) rest
      | _ => .error ⟨toString (i + 1) ++ "-th argument to '*' must be a number!"⟩

/-- native_functions.rs `multiplication`: the `*` native. -/
def multiplication (arguments : List MankaiObject) : Except RuntimeError MankaiObject :=
  if arguments.isEmpty then .error ⟨"'*' requires at least one argument!"⟩
  else (multiplicationLoop 0 1 arguments).map .number

/-- The `skip(1)` loop of native_functions.rs `division`; `i` is the 0-based
index of the next element in the full argument list, and a zero divisor at
any of these positions is a distinct divide-by-zero error. -/
def divisionLoop : Nat → Rat → List MankaiObject → Except RuntimeError Rat
  | _, acc, [] => .ok acc
  | i, acc, value :: rest =>
      match value with
      | .number n =>
          if n ≠ 0 then divisionLoop (i + 1) (acc / n) rest
          else .error ⟨"can't divide by zero (" ++ toString (i + 1) ++
                       "-th argument to '/' is zero)!"⟩
      | _ => .error ⟨toString (i + 1) ++ "-th argument to '/' must be a number!"⟩

/-- native_functions.rs `division`: the `/` native; one argument yields its
reciprocal (no zero guard on that path), several fold left-to-right division
starting from the first, the divisors being checked against zero. -/
def division (arguments : List MankaiObject) : Except RuntimeError MankaiObject :=
  match arguments with
  | [] => .error ⟨"'/' requires at least one argument!"⟩
  | [value] =>
      match value with
      | .number n => .ok (.number (1 / n))
      | _ => .error ⟨"1st argument to '/' must be a number!"⟩
  | first :: rest =>
      match first with
      | .number n => (divisionLoop 1 n rest).map .number
      | _ => .error ⟨"1st argument to '/' must be a number!"⟩

/-- The enumeration loop of native_functions.rs `and`: `Bool(false)` returns
immediately, `Bool(true)` continues, anything else is a positional type
error. -/
def andLoop : Nat → List MankaiObject → Except RuntimeError MankaiObject
  | _, [] => .ok (.bool true)
  | i, value :: rest =>
      match value with
      | .bool false => .ok (.bool false)
      | .bool true => andLoop (i + 1) rest
      | _ => .error ⟨toString (i + 1) ++ "-th argument to 'and' is not a boolean!"⟩

/-- native_functions.rs `and`: logic AND with unfixed arity. -/
def and (arguments : List MankaiObject) : Except RuntimeError MankaiObject :=
  if arguments.isEmpty then .error ⟨"'and' requires at least one argument!"⟩
  else andLoop 0 arguments

/-- native_functions.rs `car`: head of a list. -/
def car (arguments : List MankaiObject) : Except RuntimeError MankaiObject :=
  match arguments with
  | [value] =>
      match value with
      | .list [] => .error ⟨"can't apply 'car' to the empty list!"⟩
      | .list (x :: _) => .ok x
      | _ => .error ⟨"1st argument to 'car' must be a list!"⟩
  | _ => .error ⟨"'car' requires exectly one argument!"⟩

/-- native_functions.rs `cdr`: tail of a list (note the source's `'car'` in
the non-list error message). -/
def cdr (arguments : List MankaiObject) : Except RuntimeError MankaiObject :=
  match arguments with
  | [value] =>
      match value with
      | .list [] => .error ⟨"can't apply 'cdr' to the empty list!"⟩
      | .list (_ :: rest) => .ok (.list rest)
      | _ => .error ⟨"1st argument to 'car' must be a list!"⟩
  | _ => .error ⟨"'cdr' requires exectly one argument!"⟩

/-- native_functions.rs `cons`: append all further arguments to the end of
the first (which must be a list). -/
def cons (arguments : List MankaiObject) : Except RuntimeError MankaiObject :=
  match arguments with
  | first :: second :: rest =>
      match first with
      | .list l => .ok (.list (l ++ second :: rest))
      | _ => .error ⟨"1st argument to 'cons' must be a list"⟩
  | _ => .error ⟨"'cons' requires at least two arguments!"⟩

/-- native_functions.rs `list`: wrap the arguments in a list. -/
def list (arguments : List MankaiObject) : Except RuntimeError MankaiObject :=
  .ok (.list arguments)

/-- The enumeration loop of native_functions.rs `string_concat`. -/
def stringConcatLoop : Nat → String → List MankaiObject → Except RuntimeError String
  | _, acc, [] => .ok acc
  | i, acc, value :: rest =>
      match value with
      | .string s => stringConcatLoop (i + 1) (acc ++ s) rest
      | _ => .error ⟨toString (i + 1) ++ "-th argument must be a string!"⟩

/-- native_functions.rs `string_concat`. -/
def stringConcat (arguments : List MankaiObject) : Except RuntimeError MankaiObject :=
  if arguments.isEmpty then
    .error ⟨"'string-concat' requires at least one argument!"⟩
  else (stringConcatLoop 0 "" arguments).map .string

/-- native_functions.rs `to_string`: idempotent on strings, otherwise wraps
the value's textual rendering. -/
def toStringNative (arguments : List MankaiObject) : Except RuntimeError MankaiObject :=
  match arguments with
  | [value] =>
      match value with
      | .string _ => .ok value
      | _ => .ok (.string value.toString)
  | _ => .error ⟨"'to-string' requires exactly one argument!"⟩

/-- The adjacent-comparison loop of the spec-modelled `equals`. -/
def equalsLoop : Nat → Rat → List MankaiObject → Except RuntimeError Bool
  | _, _, [] => .ok true
  | i, prev, value :: rest =>
      match value with
      | .number n => if prev = n then equalsLoop (i + 1) n rest else .ok false
      | _ => .error ⟨toString (i + 1) ++ "-th argument to '=' must be a number!"⟩

/-- Modelled from the spec: `native_functions::equals` is registered in
`Environment::new` but its source is not among the provided files.  Spec
§4.4 for `=`: chained numeric comparison of adjacent arguments, failing on a
non-Number operand with its 1-based position. -/
def equals (arguments : List MankaiObject) : Except RuntimeError MankaiObject :=
  match arguments with
  | [] => .error ⟨"'=' requires at least one argument!"⟩
  | first :: rest =>
      match first with
      | .number n => (equalsLoop 1 n rest).map .bool
      | _ => .error ⟨"1st argument to '=' must be a number!"⟩

/-- The adjacent-comparison loop of the spec-modelled `greaterThan`. -/
def greaterThanLoop : Nat → Rat → List MankaiObject → Except RuntimeError Bool
  | _, _, [] => .ok true
  | i, prev, value :: rest =>
      match value with
      | .number n => if prev > n then greaterThanLoop (i + 1) n rest else .ok false
      | _ => .error ⟨toString (i + 1) ++ "-th argument to '>' must be a number!"⟩

/-- Modelled from the spec: `native_functions::greater_than` is registered in
`Environment::new` but its source is not among the provided files.  Spec
§4.4 for `>`: chained numeric comparison of adjacent arguments. -/
def greaterThan (arguments : List MankaiObject) : Except RuntimeError MankaiObject :=
  match arguments with
  | [] => .error ⟨"'>' requires at least one argument!"⟩
  | first :: rest =>
      match first with
      | .number n => (greaterThanLoop 1 n rest).map .bool
      | _ => .error ⟨"1st argument to '>' must be a number!"⟩

/-- The adjacent-comparison loop of the spec-modelled `lessThan`. -/
def lessThanLoop : Nat → Rat → List MankaiObject → Except RuntimeError Bool
  | _, _, [] => .ok true
  | i, prev, value :: rest =>
      match value with
      | .number n => if prev < n then lessThanLoop (i + 1) n rest else .ok false
      | _ => .error ⟨toString (i + 1) ++ "-th argument to '<' must be a number!"⟩

/-- Modelled from the spec: `native_functions::less_than` is registered in
`Environment::new` but its source is not among the provided files.  Spec
§4.4 for `<`: chained numeric comparison of adjacent arguments. -/
def lessThan (arguments : List MankaiObject) : Except RuntimeError MankaiObject :=
  match arguments with
  | [] => .error ⟨"'<' requires at least one argument!"⟩
  | first :: rest =>
      match first with
      | .number n => (lessThanLoop 1 n rest).map .bool
      | _ => .error ⟨"1st argument to '<' must be a number!"⟩

/-- Modelled from the spec: `native_functions::is_boolean` is registered in
`Environment::new` but its source is not among the provided files.  Spec
§4.4 for `bool?`: exactly one argument, returns a Bool variant test. -/
def isBoolean (arguments : List MankaiObject) : Except RuntimeError MankaiObject :=
  match arguments with
  | [value] =>
      match value with
      | .bool _ => .ok (.bool true)
      | _ => .ok (.bool false)
  | _ => .error ⟨"'bool?' requires exactly one argument!"⟩

/-- Modelled from the spec: `native_functions::is_list` is registered in
`Environment::new` but its source is not among the provided files.  Spec
§4.4 for `list?`: exactly one argument, returns a List variant test. -/
def isList (arguments : List MankaiObject) : Except RuntimeError MankaiObject :=
  match arguments with
  | [value] =>
      match value with
      | .list _ => .ok (.bool true)
      | _ => .ok (.bool false)
  | _ => .error ⟨"'list?' requires exactly one argument!"⟩

/-- Modelled from the spec: `native_functions::is_number` is registered in
`Environment::new` but its source is not among the provided files.  Spec
§4.4 for `number?`: exactly one argument, returns a Number variant test. -/
def isNumber (arguments : List MankaiObject) : Except RuntimeError MankaiObject :=
  match arguments with
  | [value] =>
      match value with
      | .number _ => .ok (.bool true)
      | _ => .ok (.bool false)
  | _ => .error ⟨"'number?' requires exactly one argument!"⟩

/-- Modelled from the spec: `native_functions::is_string` is registered in
`Environment::new` but its source is not among the provided files.  Spec
§4.4 for `string?`: exactly one argument, returns a String variant test. -/
def isString (arguments : List MankaiObject) : Except RuntimeError MankaiObject :=
  match arguments with
  | [value] =>
      match value with
      | .string _ => .ok (.bool true)
      | _ => .ok (.bool false)
  | _ => .error ⟨"'string?' requires exactly one argument!"⟩

/-- Modelled from the spec: `native_functions::not` is registered in
`Environment::new` but its source is not among the provided files.  Spec
§4.4 for `not`: boolean-only, type error on a non-Bool operand. -/
def not (arguments : List MankaiObject) : Except RuntimeError MankaiObject :=
  match arguments with
  | [value] =>
      match value with
      | .bool b => .ok (.bool (!b))
      | _ => .error ⟨"1st argument to 'not' is not a boolean!"⟩
  | _ => .error ⟨"'not' requires exactly one argument!"⟩

/-- The enumeration loop of the spec-modelled `or`. -/
def orLoop : Nat → List MankaiObject → Except RuntimeError MankaiObject
  | _, [] => .ok (.bool false)
  | i, value :: rest =>
      match value with
      | .bool true => .ok (.bool true)
      | .bool false => orLoop (i + 1) rest
      | _ => .error ⟨toString (i + 1) ++ "-th argument to 'or' is not a boolean!"⟩

/-- Modelled from the spec: `native_functions::or` is registered in
`Environment::new` but its source is not among the provided files.  Spec
§4.4 for `or`: boolean-only short-circuit disjunction, type error with the
1-based position on a non-Bool operand. -/
def or (arguments : List MankaiObject) : Except RuntimeError MankaiObject :=
  if arguments.isEmpty then .error ⟨"'or' requires at least one argument!"⟩
  else orLoop 0 arguments

/-- Dispatch a defunctionalized `MankaiObject::Native` tag to its handler. -/
def runNative : NativeTag → List MankaiObject → Except RuntimeError MankaiObject
  | .sum, args => sum args
  | .substract, args => substract args
  | .multiplication, args => multiplication args
  | .division, args => division args
  | .equals, args => equals args
  | .greaterThan, args => greaterThan args
  | .lessThan, args => lessThan args
  | .isBoolean, args => isBoolean args
  | .isList, args => isList args
  | .isNumber, args => isNumber args
  | .isString, args => isString args
  | .and, args => and args
  | .car, args => car args
  | .cdr, args => cdr args
  | .cons, args => cons args
  | .list, args => list args
  | .not, args => not args
  | .or, args => or args
  | .stringConcat, args => stringConcat args
  | .toStringNative, args => toStringNative args

/-- Outcome of one evaluation step: a value, a `RuntimeError`, a Rust
`panic!` (`fatal`, aborting the process rather than returning an error), or
exhaustion of the fuel bounding the embedded recursion. -/
inductive EvalOutcome where
  | ok : MankaiObject → EvalOutcome
  | err : RuntimeError → EvalOutcome
  | fatal : String → EvalOutcome
  | fuelOut : EvalOutcome
deriving DecidableEq

/-- Outcome of evaluating an argument list: the evaluated values, or the
first non-`ok` outcome encountered. -/
inductive ArgsOutcome where
  | ok : List MankaiObject → ArgsOutcome
  | fail : EvalOutcome → ArgsOutcome
deriving DecidableEq

/-- interpreter.rs `Interpreter::evaluate_atom`: literals to values,
identifiers to environment lookups. -/
def Interpreter.evaluateAtom (s : Interpreter) (atom : Token) :
    Except RuntimeError MankaiObject :=
  match atom.kind with
  | .number n => .ok (.number n)
  | .string str => .ok (.string str)
  | .identifier => s.environment.get atom
  | _ => .error ⟨"failed to convert atom to value"⟩

/-- The parameter-binding loop of `MankaiObject::call`: define each
(identifier, value) pair in turn; `none` propagates the `define` panic. -/
def bindArguments (env : Environment) :
    List (Token × MankaiObject) → Option Environment
  | [] => some env
  | (identifier, value) :: rest =>
      match env.define identifier value with
      | some env2 => bindArguments env2 rest
      | none => none

/-- The identifier-collecting loop shared by special_forms.rs `defun` and
`lambda`; `i` is the 0-based index of the next candidate parameter. -/
def collectIdentifiers : Nat → List Sexp → Except RuntimeError (List Token)
  | _, [] => .ok []
  | i, .atom token :: rest =>
      if token.kind = .identifier then
        (collectIdentifiers (i + 1) rest).map (token :: ·)
      else .error ⟨toString (i + 1) ++ "th argument is not an identifier!"⟩
  | i, .list _ :: _ =>
      .error ⟨"Expected list of arguments: " ++ toString (i + 1) ++
              "th argument is not an identifier!"⟩

/-- special_forms.rs `lambda`: the `lambda!` special form; builds an
anonymous `Function` value without touching the environment (including the
source's truncated "1st argumeth" error message). -/
def lambda (s : Interpreter) (arguments : List Sexp) :
    EvalOutcome × Interpreter :=
  match arguments with
  | [first, second] =>
      match first with
      | .list argumentsRaw =>
          match collectIdentifiers 0 argumentsRaw with
          | .ok ids => (.ok (.function none ids second), s)
          | .error e => (.err e, s)
      | _ => (.err ⟨"1st argumeth"⟩, s)
  | _ => (.err ⟨"'lambda!' requires exactly two arguments!"⟩, s)

mutual

/-- interpreter.rs `Interpreter::evaluate`, fuel-indexed. -/
def evaluate : Nat → Interpreter → Sexp → EvalOutcome × Interpreter
  | 0, s, _ => (.fuelOut, s)
  | _ + 1, s, .atom token =>
      match s.evaluateAtom token with
      | .ok value => (.ok value, s)
      | .error e => (.err e, s)
  | n + 1, s, .list l => evaluateList n s l

/-- interpreter.rs `Interpreter::evaluate_list`: evaluate the head to a
callee; a special form receives the unevaluated rest, anything else gets its
arguments evaluated left to right and is then called.  An empty list models
the source's `list.get(0).unwrap()` panic. -/
def evaluateList : Nat → Interpreter → List Sexp → EvalOutcome × Interpreter
  | 0, s, _ => (.fuelOut, s)
  | n + 1, s, l =>
      match l with
      | [] => (.fatal "called `Option::unwrap()` on a `None` value", s)
      | head :: rest =>
          match evaluate n s head with
          | (.ok callee, s1) =>
              match callee with
              | .specialForm tag => runSpecialForm n tag s1 rest
              | _ =>
                  match evalArgs n s1 rest with
                  | (.ok args, s2) => call n s2 callee args
                  | (.fail r, s2) => (r, s2)
          | (r, s1) => (r, s1)

/-- The argument-evaluation loop of `evaluate_list`: left to right, first
failure aborts. -/
def evalArgs : Nat → Interpreter → List Sexp → ArgsOutcome × Interpreter
  | 0, s, _ => (.fail .fuelOut, s)
  | _ + 1, s, [] => (.ok [], s)
  | n + 1, s, expr :: rest =>
      match evaluate n s expr with
      | (.ok value, s1) =>
          match evalArgs n s1 rest with
          | (.ok values, s2) => (.ok (value :: values), s2)
          | (.fail r, s2) => (.fail r, s2)
      | (r, s1) => (.fail r, s1)

/-- interpreter.rs `MankaiObject::call`: native functions run directly; a
user-defined function checks arity, extends the environment, binds the
parameters positionally, evaluates the body, and restricts the environment
before returning the body's outcome; anything else is not callable. -/
def call : Nat → Interpreter → MankaiObject → List MankaiObject →
    EvalOutcome × Interpreter
  | 0, s, _, _ => (.fuelOut, s)
  | n + 1, s, callee, arguments =>
      match callee with
      | .native tag =>
          match runNative tag arguments with
          | .ok value => (.ok value, s)
          | .error e => (.err e, s)
      | .function name argumentsIdentifiers body =>
          if argumentsIdentifiers.length ≠ arguments.length then
            (.err ⟨"found " ++ toString arguments.length ++ " arguments but '" ++
                   name.getD "anonymous function" ++ "' requires " ++
                   toString argumentsIdentifiers.length ++ "!"⟩, s)
          else
            match bindArguments s.environment.extend
                (argumentsIdentifiers.zip arguments) with
            | none =>
                (.fatal "the environment has no layer!",
                 { s with environment := s.environment.extend })
            | some env2 =>
                match evaluate n { s with environment := env2 } body with
                | (result, s3) =>
                    match s3.environment.restrict with
                    | some env4 => (result, { s3 with environment := env4 })
                    | none => (.fatal "trying to remove global scope", s3)
      | _ => (.err ⟨"'" ++ callee.toString ++ "' is not callable!"⟩, s)

/-- Dispatch a defunctionalized `MankaiObject::SpecialForm` tag to its
handler. -/
def runSpecialForm : Nat → SpecialFormTag → Interpreter → List Sexp →
    EvalOutcome × Interpreter
  | 0, _, s, _ => (.fuelOut, s)
  | n + 1, .ifForm, s, args => ifSpecialForm n s args
  | _ + 1, .lambdaForm, s, args => lambda s args
  | n + 1, .setForm, s, args => set n s args
  | n + 1, .defineForm, s, args => define n s args
  | n + 1, .defunForm, s, args => defun n s args

/-- special_forms.rs `if_special_form`: the `if!` special form; exactly three
sub-expressions, the condition must evaluate to a Bool, and exactly one of
the branches is evaluated. -/
def ifSpecialForm : Nat → Interpreter → List Sexp → EvalOutcome × Interpreter
  | 0, s, _ => (.fuelOut, s)
  | n + 1, s, arguments =>
      match arguments with
      | [c, t, e] =>
          match evaluate n s c with
          | (.ok condition, s1) =>
              match condition with
              | .bool true => evaluate n s1 t
              | .bool false => evaluate n s1 e
              | _ => (.err ⟨"1st argument to 'if!' must evaluate to a boolean!"⟩, s1)
          | (r, s1) => (r, s1)
      | _ => (.err ⟨"'if!' requires exactly three arguments!"⟩, s)

/-- Modelled from the spec: `special_forms::set` is registered in
`Environment::new` but its source is not among the provided files.  Spec
§4.2: `set!` takes exactly two sub-expressions, the first an identifier
atom; it evaluates the value expression once, binds identifier→value in the
topmost layer, and returns the bound value — with no reserved-name guard. -/
def set : Nat → Interpreter → List Sexp → EvalOutcome × Interpreter
  | 0, s, _ => (.fuelOut, s)
  | n + 1, s, arguments =>
      match arguments with
      | [first, second] =>
          match first with
          | .atom name =>
              if name.kind ≠ .identifier then
                (.err ⟨"'" ++ name.lexeme ++ "' is not an identifier!"⟩, s)
              else
                match evaluate n s second with
                | (.ok value, s1) =>
                    match s1.environment.define name value with
                    | some env2 => (.ok value, { s1 with environment := env2 })
                    | none => (.fatal "the environment has no layer!", s1)
                | (r, s1) => (r, s1)
          | .list _ => (.err ⟨"expected identifier as first argument to 'set!'"⟩, s)
      | _ => (.err ⟨"expected exactly two arguments to 'set!'"⟩, s)

/-- special_forms.rs `define`: the `define!` special form; like `set!` but
guarded against rebinding reserved special-form, native-function and
constant names (its arity and shape error messages say 'set!' in the
source). -/
def define : Nat → Interpreter → List Sexp → EvalOutcome × Interpreter
  | 0, s, _ => (.fuelOut, s)
  | n + 1, s, arguments =>
      match arguments with
      | [first, second] =>
          match first with
          | .atom name =>
              if name.kind ≠ .identifier then
                (.err ⟨"'" ++ name.lexeme ++ "' is not an identifier!"⟩, s)
              else if s.isSpecialForm name then
                (.err ⟨"can't assign to '" ++ name.lexeme ++
                       "' because the name is reserved for a special form!"⟩, s)
              else if s.isNativeFucntion name then
                (.err ⟨"can't assign to '" ++ name.lexeme ++
                       "' because the name is reserved for a native function!"⟩, s)
              else if s.isConstant name then
                (.err ⟨"can't assign to '" ++ name.lexeme ++
                       "' because the name is reserved for a constant!"⟩, s)
              else
                match evaluate n s second with
                | (.ok value, s1) =>
                    match s1.environment.define name value with
                    | some env2 => (.ok value, { s1 with environment := env2 })
                    | none => (.fatal "the environment has no layer!", s1)
                | (r, s1) => (r, s1)
          | .list _ => (.err ⟨"expected identifier as first argument to 'set!'"⟩, s)
      | _ => (.err ⟨"expected exacly two arguments to 'set!'"⟩, s)

/-- special_forms.rs `defun`: the `defun!` special form; builds a named
`Function`, binds it to its name in the current layer and returns it. -/
def defun : Nat → Interpreter → List Sexp → EvalOutcome × Interpreter
  | 0, s, _ => (.fuelOut, s)
  | _ + 1, s, arguments =>
      match arguments with
      | [first, second, third] =>
          match first with
          | .atom nameToken =>
              if nameToken.kind ≠ .identifier then
                (.err ⟨"1st argument to 'defun!' must be an identifier!"⟩, s)
              else
                match second with
                | .list argumentsRaw =>
                    match collectIdentifiers 0 argumentsRaw with
                    | .ok ids =>
                        let function :=
                          MankaiObject.function (some nameToken.lexeme) ids third
                        match s.environment.define
                            ⟨nameToken.lexeme, .identifier⟩ function with
                        | some env2 => (.ok function, { s with environment := env2 })
                        | none => (.fatal "the environment has no layer!", s)
                    | .error e => (.err e, s)
                | _ =>
                    (.err ⟨"2nd argument to 'defun!' must be a list of identifiers!"⟩, s)
          | _ => (.err ⟨"1st argument to 'defun!' must be an identifier!"⟩, s)
      | _ => (.err ⟨"'defun!' requires exactly three arguments!"⟩, s)

end

/-- The layer-stack depth of an interpreter state. -/
def Interpreter.depth (s : Interpreter) : Nat :=
  s.environment.layers.length

/-- The S-expression `(lambda! (x y) (+ x y))`. -/
def lamXY : Sexp :=
  .list [.atom ⟨"lambda!", .identifier⟩,
         .list [.atom ⟨"x", .identifier⟩, .atom ⟨"y", .identifier⟩],
         .list [.atom ⟨"+", .identifier⟩, .atom ⟨"x", .identifier⟩,
                .atom ⟨"y", .identifier⟩]]


/-- `define` on a nonempty layer stack succeeds and preserves the depth. -/
theorem Environment.define_isSome (env : Environment) (t : Token)
    (v : MankaiObject) (h : env.layers ≠ []) :
    ∃ env2, env.define t v = some env2 ∧
      env2.layers.length = env.layers.length := by
  cases henv : env.layers with
  | nil => exact absurd henv h
  | cons top rest =>
      exact ⟨⟨((t.lexeme, v) :: top) :: rest⟩,
        by simp [Environment.define, henv], by simp [henv]⟩

/-- Binding a pair list on an explicitly nonempty layer stack: every pair is
prepended, in order, to the topmost layer. -/
theorem bindArguments_eq (pairs : List (Token × MankaiObject)) :
    ∀ (top : Layer) (rest : List Layer),
      bindArguments ⟨top :: rest⟩ pairs =
        some ⟨(pairs.reverse.map (fun p => (p.1.lexeme, p.2)) ++ top) :: rest⟩ := by
  induction pairs with
  | nil => intro top rest; simp [bindArguments]
  | cons p ps ih =>
      intro top rest
      obtain ⟨t, v⟩ := p
      simp only [bindArguments, Environment.define]
      rw [ih ((t.lexeme, v) :: top) rest]
      simp

/-- `restrict` succeeds exactly below the global layer, reducing the depth by
one. -/
theorem Environment.restrict_of_two_le (env : Environment)
    (h : 2 ≤ env.layers.length) :
    ∃ env2, env.restrict = some env2 ∧
      env2.layers.length + 1 = env.layers.length := by
  match henv : env.layers, h with
  | a :: b :: rest, _ =>
      exact ⟨⟨b :: rest⟩, by simp [Environment.restrict, henv], by simp [henv]⟩

/-- `lambda` never touches the interpreter state. -/
theorem lambda_state (s : Interpreter) (arguments : List Sexp) :
    (lambda s arguments).2 = s := by
  simp only [lambda]
  repeat' split
  all_goals rfl

/-- Depth preservation: at every fuel, every function of the evaluator
returns a state whose layer-stack depth equals the input depth, provided the
global layer is present.  This is the exception-safety of the
`extend`/`restrict` pairing around user-defined calls, proved simultaneously
for the whole mutual evaluation nest. -/
theorem depthPreserved :
    ∀ n : Nat,
      (∀ s e, 0 < s.depth → ((evaluate n s e).2).depth = s.depth) ∧
      (∀ s l, 0 < s.depth → ((evaluateList n s l).2).depth = s.depth) ∧
      (∀ s l, 0 < s.depth → ((evalArgs n s l).2).depth = s.depth) ∧
      (∀ s c a, 0 < s.depth → ((call n s c a).2).depth = s.depth) ∧
      (∀ t s l, 0 < s.depth → ((runSpecialForm n t s l).2).depth = s.depth) ∧
      (∀ s l, 0 < s.depth → ((ifSpecialForm n s l).2).depth = s.depth) ∧
      (∀ s l, 0 < s.depth → ((set n s l).2).depth = s.depth) ∧
      (∀ s l, 0 < s.depth → ((define n s l).2).depth = s.depth) ∧
      (∀ s l, 0 < s.depth → ((defun n s l).2).depth = s.depth) := by
  intro n
  induction n with
  | zero =>
      refine ⟨?_, ?_, ?_, ?_, ?_, ?_, ?_, ?_, ?_⟩ <;>
        intros <;> simp [evaluate, evaluateList, evalArgs, call,
          runSpecialForm, ifSpecialForm, set, define, defun]
  | succ n ih =>
      obtain ⟨ihEval, ihList, ihArgs, ihCall, ihRun, ihIf, ihSet,
        ihDefine, ihDefun⟩ := ih
      refine ⟨?_, ?_, ?_, ?_, ?_, ?_, ?_, ?_, ?_⟩
      · -- evaluate
        intro s e hd
        cases e with
        | atom token =>
            simp only [evaluate]
            split <;> rfl
        | list l => exact ihList s l hd
      · -- evaluateList
        intro s l hd
        cases l with
        | nil => simp [evaluateList]
        | cons head rest =>
            simp only [evaluateList]
            rcases h1 : evaluate n s head with ⟨r1, s1⟩
            have d1 : s1.depth = s.depth := by
              have := ihEval s head hd
              rwa [h1] at this
            have hd1 : 0 < s1.depth := d1 ▸ hd
            rcases r1 with v | e | m | _
            · cases v with
              | specialForm tag =>
                  simp only
                  rw [(ihRun tag s1 rest hd1 : _), d1]
              | number q =>
                  simp only
                  rcases h2 : evalArgs n s1 rest with ⟨r2, s2⟩
                  have d2 : s2.depth = s1.depth := by
                    have := ihArgs s1 rest hd1
                    rwa [h2] at this
                  have hd2 : 0 < s2.depth := d2 ▸ hd1
                  rcases r2 with vs | r
                  · simp only
                    rw [(ihCall s2 (.number q) vs hd2 : _), d2, d1]
                  · simp only
                    rw [d2, d1]
              | string str =>
                  simp only
                  rcases h2 : evalArgs n s1 rest with ⟨r2, s2⟩
                  have d2 : s2.depth = s1.depth := by
                    have := ihArgs s1 rest hd1
                    rwa [h2] at this
                  have hd2 : 0 < s2.depth := d2 ▸ hd1
                  rcases r2 with vs | r
                  · simp only
                    rw [(ihCall s2 (.string str) vs hd2 : _), d2, d1]
                  · simp only
                    rw [d2, d1]
              | list xs =>
                  simp only
                  rcases h2 : evalArgs n s1 rest with ⟨r2, s2⟩
                  have d2 : s2.depth = s1.depth := by
                    have := ihArgs s1 rest hd1
                    rwa [h2] at this
                  have hd2 : 0 < s2.depth := d2 ▸ hd1
                  rcases r2 with vs | r
                  · simp only
                    rw [(ihCall s2 (.list xs) vs hd2 : _), d2, d1]
                  · simp only
                    rw [d2, d1]
              | bool b =>
                  simp only
                  rcases h2 : evalArgs n s1 rest with ⟨r2, s2⟩
                  have d2 : s2.depth = s1.depth := by
                    have := ihArgs s1 rest hd1
                    rwa [h2] at this
                  have hd2 : 0 < s2.depth := d2 ▸ hd1
                  rcases r2 with vs | r
                  · simp only
                    rw [(ihCall s2 (.bool b) vs hd2 : _), d2, d1]
                  · simp only
                    rw [d2, d1]
              | native tag =>
                  simp only
                  rcases h2 : evalArgs n s1 rest with ⟨r2, s2⟩
                  have d2 : s2.depth = s1.depth := by
                    have := ihArgs s1 rest hd1
                    rwa [h2] at this
                  have hd2 : 0 < s2.depth := d2 ▸ hd1
                  rcases r2 with vs | r
                  · simp only
                    rw [(ihCall s2 (.native tag) vs hd2 : _), d2, d1]
                  · simp only
                    rw [d2, d1]
              | function nm ps body =>
                  simp only
                  rcases h2 : evalArgs n s1 rest with ⟨r2, s2⟩
                  have d2 : s2.depth = s1.depth := by
                    have := ihArgs s1 rest hd1
                    rwa [h2] at this
                  have hd2 : 0 < s2.depth := d2 ▸ hd1
                  rcases r2 with vs | r
                  · simp only
                    rw [(ihCall s2 (.function nm ps body) vs hd2 : _), d2, d1]
                  · simp only
                    rw [d2, d1]
            · exact d1
            · exact d1
            · exact d1
      · -- evalArgs
        intro s l hd
        cases l with
        | nil => rfl
        | cons expr rest =>
            simp only [evalArgs]
            rcases h1 : evaluate n s expr with ⟨r1, s1⟩
            have d1 : s1.depth = s.depth := by
              have := ihEval s expr hd
              rwa [h1] at this
            have hd1 : 0 < s1.depth := d1 ▸ hd
            rcases r1 with v | e | m | _
            · simp only
              rcases h2 : evalArgs n s1 rest with ⟨r2, s2⟩
              have d2 : s2.depth = s1.depth := by
                have := ihArgs s1 rest hd1
                rwa [h2] at this
              rcases r2 with vs | r
              · simp only; rw [d2, d1]
              · simp only; rw [d2, d1]
            · exact d1
            · exact d1
            · exact d1
      · -- call
        intro s c a hd
        cases c with
        | native tag =>
            simp only [call]
            split <;> rfl
        | function nm ps body =>
            simp only [call]
            split
            · rfl
            · have hd' : 0 < s.environment.layers.length := hd
              have hbind := bindArguments_eq (ps.zip a) []
                s.environment.layers
              have hext : s.environment.extend = ⟨[] :: s.environment.layers⟩ := rfl
              rw [hext, hbind]
              simp only
              rcases h2 : evaluate n
                  { s with environment :=
                      ⟨(((ps.zip a).reverse.map fun p => (p.1.lexeme, p.2)) ++ []) ::
                        s.environment.layers⟩ } body with ⟨r2, s3⟩
              have d2 : s3.environment.layers.length =
                  s.environment.layers.length + 1 := by
                have := ihEval
                  { s with environment :=
                      ⟨(((ps.zip a).reverse.map fun p => (p.1.lexeme, p.2)) ++ []) ::
                        s.environment.layers⟩ } body (by simp [Interpreter.depth])
                rw [h2] at this
                simpa [Interpreter.depth] using this
              obtain ⟨env4, hres, hlen⟩ :=
                s3.environment.restrict_of_two_le (by omega)
              rw [hres]
              show env4.layers.length = s.environment.layers.length
              omega
        | number q => simp only [call]
        | string str => simp only [call]
        | list xs => simp only [call]
        | bool b => simp only [call]
        | specialForm tag => simp only [call]
      · -- runSpecialForm
        intro t s l hd
        cases t with
        | ifForm => exact ihIf s l hd
        | lambdaForm =>
            show ((lambda s l).2).depth = s.depth
            rw [lambda_state]
        | setForm => exact ihSet s l hd
        | defineForm => exact ihDefine s l hd
        | defunForm => exact ihDefun s l hd
      · -- ifSpecialForm
        intro s l hd
        simp only [ifSpecialForm]
        split
        · rename_i c t e
          rcases h1 : evaluate n s c with ⟨r1, s1⟩
          have d1 : s1.depth = s.depth := by
            have := ihEval s c hd
            rwa [h1] at this
          have hd1 : 0 < s1.depth := d1 ▸ hd
          rcases r1 with v | er | m | _
          · cases v with
            | bool b =>
                cases b
                · simp only
                  rw [(ihEval s1 e hd1 : _), d1]
                · simp only
                  rw [(ihEval s1 t hd1 : _), d1]
            | number q => exact d1
            | string str => exact d1
            | list xs => exact d1
            | specialForm tg => exact d1
            | native tg => exact d1
            | function nm ps body => exact d1
          · exact d1
          · exact d1
          · exact d1
        · rfl
      · -- set
        intro s l hd
        simp only [set]
        split
        · rename_i first second
          split
          · split
            · rfl
            · rename_i name hident
              rcases h1 : evaluate n s second with ⟨r1, s1⟩
              have d1 : s1.depth = s.depth := by
                have := ihEval s second hd
                rwa [h1] at this
              have hd1 : 0 < s1.depth := d1 ▸ hd
              rcases r1 with v | er | m | _
              · simp only
                obtain ⟨env2, hdef, hlen⟩ :=
                  s1.environment.define_isSome name v
                    (List.length_pos.mp hd1)
                rw [hdef]
                simp only [Interpreter.depth] at *
                omega
              · exact d1
              · exact d1
              · exact d1
          · rfl
        · rfl
      · -- define
        intro s l hd
        simp only [define]
        split
        · rename_i first second
          split
          · split
            · rfl
            · split
              · rfl
              · split
                · rfl
                · split
                  · rfl
                  · rename_i name h1 h2 h3 h4
                    rcases h5 : evaluate n s second with ⟨r1, s1⟩
                    have d1 : s1.depth = s.depth := by
                      have := ihEval s second hd
                      rwa [h5] at this
                    have hd1 : 0 < s1.depth := d1 ▸ hd
                    rcases r1 with v | er | m | _
                    · simp only
                      obtain ⟨env2, hdef, hlen⟩ :=
                        s1.environment.define_isSome name v
                          (List.length_pos.mp hd1)
                      rw [hdef]
                      simp only [Interpreter.depth] at *
                      omega
                    · exact d1
                    · exact d1
                    · exact d1
          · rfl
        · rfl
      · -- defun
        intro s l hd
        simp only [defun]
        split
        · rename_i first second third
          split
          · split
            · rfl
            · rename_i nameToken hident
              split
              · rename_i argumentsRaw
                split
                · rename_i ids hcollect
                  obtain ⟨env2, hdef, hlen⟩ :=
                    s.environment.define_isSome ⟨nameToken.lexeme, .identifier⟩
                      (.function (some nameToken.lexeme) ids third)
                      (List.length_pos.mp hd)
                  rw [hdef]
                  simp only [Interpreter.depth] at *
                  omega
                · rfl
              · rfl
          · rfl
        · rfl

/-- The `divisionLoop` on all-nonzero numeric divisors folds left-to-right
division. -/
theorem divisionLoop_numbers (qs : List Rat) :
    ∀ (i : Nat) (acc : Rat), (∀ q ∈ qs, q ≠ 0) →
      divisionLoop i acc (qs.map .number) = .ok (qs.foldl (· / ·) acc) := by
  induction qs with
  | nil => intro i acc _; rfl
  | cons q qs ih =>
      intro i acc h
      have hq : q ≠ 0 := h q (List.mem_cons_self q qs)
      simp only [List.map_cons, divisionLoop]
      rw [if_pos hq, ih (i + 1) (acc / q)
        (fun r hr => h r (List.mem_cons_of_mem q hr))]
      rfl

/-- The `divisionLoop` hitting a zero divisor after a nonzero numeric prefix
reports a divide-by-zero error at the zero's position. -/
theorem divisionLoop_zero (pre : List Rat) :
    ∀ (i : Nat) (acc : Rat) (post : List MankaiObject),
      (∀ q ∈ pre, q ≠ 0) →
      divisionLoop i acc (pre.map .number ++ .number 0 :: post) =
        .error ⟨"can't divide by zero (" ++ toString (i + pre.length + 1) ++
                "-th argument to '/' is zero)!"⟩ := by
  induction pre with
  | nil =>
      intro i acc post _
      simp only [List.map_nil, List.nil_append, divisionLoop]
      rw [if_neg (by simp)]
      simp
  | cons p pre ih =>
      intro i acc post h
      have hp : p ≠ 0 := h p (List.mem_cons_self p pre)
      simp only [List.map_cons, List.cons_append, List.append_eq, divisionLoop]
      rw [if_pos hp, ih (i + 1) (acc / p) post
        (fun r hr => h r (List.mem_cons_of_mem p hr))]
      have heq : i + 1 + pre.length + 1 = i + (pre.length + 1) + 1 := by omega
      simp [heq]

/-- The multi-argument entry of `division` hands the tail to the loop at
position index 1. -/
theorem division_multi (a : Rat) (v : MankaiObject) (rest : List MankaiObject) :
    division (.number a :: v :: rest) =
      (divisionLoop 1 a (v :: rest)).map .number := rfl

/-- The `andLoop` skips over a prefix of `Bool(true)` arguments, advancing
the position counter. -/
theorem andLoop_true_run (k : Nat) :
    ∀ (i : Nat) (rest : List MankaiObject),
      andLoop i (List.replicate k (.bool true) ++ rest) =
        andLoop (i + k) rest := by
  induction k with
  | zero => intro i rest; simp
  | succ k ih =>
      intro i rest
      simp only [List.replicate, List.cons_append, List.append_eq, andLoop]
      rw [ih (i + 1) rest]
      congr 1
      omega

/-- C7: value equality (`PartialEq`) never holds for `SpecialForm`,
`NativeFunction` or user-defined `Function` values — not even against
themselves — and when it does hold the two values are same-variant Numbers,
Strings, Bools, or element-wise-equal Lists. -/
theorem c7_value_equality :
    (∀ (t : SpecialFormTag) (w : MankaiObject),
      (MankaiObject.specialForm t).mankaiEq w = false) ∧
    (∀ (t : NativeTag) (w : MankaiObject),
      (MankaiObject.native t).mankaiEq w = false) ∧
    (∀ (nm : Option String) (ps : List Token) (b : Sexp) (w : MankaiObject),
      (MankaiObject.function nm ps b).mankaiEq w = false) ∧
    (∀ v w : MankaiObject, v.mankaiEq w = true →
      (∃ q, v = .number q ∧ w = .number q) ∨
      (∃ str, v = .string str ∧ w = .string str) ∨
      (∃ b, v = .bool b ∧ w = .bool b) ∨
      (∃ l1 l2, v = .list l1 ∧ w = .list l2 ∧
        MankaiObject.listMankaiEq l1 l2 = true)) := by
  refine ⟨fun t w => rfl, fun t w => rfl, fun nm ps b w => rfl, ?_⟩
  intro v w h
  cases v with
  | number q =>
      cases w with
      | number m =>
          have hqm : q = m := by simpa [MankaiObject.mankaiEq] using h
          exact Or.inl ⟨q, rfl, by rw [hqm]⟩
      | string _ => simp [MankaiObject.mankaiEq] at h
      | list _ => simp [MankaiObject.mankaiEq] at h
      | bool _ => simp [MankaiObject.mankaiEq] at h
      | specialForm _ => simp [MankaiObject.mankaiEq] at h
      | native _ => simp [MankaiObject.mankaiEq] at h
      | function _ _ _ => simp [MankaiObject.mankaiEq] at h
  | string str =>
      cases w with
      | string t =>
          have hst : str = t := by simpa [MankaiObject.mankaiEq] using h
          exact Or.inr (Or.inl ⟨str, rfl, by rw [hst]⟩)
      | number _ => simp [MankaiObject.mankaiEq] at h
      | list _ => simp [MankaiObject.mankaiEq] at h
      | bool _ => simp [MankaiObject.mankaiEq] at h
      | specialForm _ => simp [MankaiObject.mankaiEq] at h
      | native _ => simp [MankaiObject.mankaiEq] at h
      | function _ _ _ => simp [MankaiObject.mankaiEq] at h
  | list l1 =>
      cases w with
      | list l2 =>
          exact Or.inr (Or.inr (Or.inr ⟨l1, l2, rfl, rfl,
            by simpa [MankaiObject.mankaiEq] using h⟩))
      | number _ => simp [MankaiObject.mankaiEq] at h
      | string _ => simp [MankaiObject.mankaiEq] at h
      | bool _ => simp [MankaiObject.mankaiEq] at h
      | specialForm _ => simp [MankaiObject.mankaiEq] at h
      | native _ => simp [MankaiObject.mankaiEq] at h
      | function _ _ _ => simp [MankaiObject.mankaiEq] at h
  | bool b1 =>
      cases w with
      | bool b2 =>
          have hb : b1 = b2 := by simpa [MankaiObject.mankaiEq] using h
          exact Or.inr (Or.inr (Or.inl ⟨b1, rfl, by rw [hb]⟩))
      | number _ => simp [MankaiObject.mankaiEq] at h
      | string _ => simp [MankaiObject.mankaiEq] at h
      | list _ => simp [MankaiObject.mankaiEq] at h
      | specialForm _ => simp [MankaiObject.mankaiEq] at h
      | native _ => simp [MankaiObject.mankaiEq] at h
      | function _ _ _ => simp [MankaiObject.mankaiEq] at h
  | specialForm t => simp [MankaiObject.mankaiEq] at h
  | native t => simp [MankaiObject.mankaiEq] at h
  | function nm ps b => simp [MankaiObject.mankaiEq] at h

/-- Witness for C7: applying the equality characterization at two equal
Number values. -/
theorem c7_value_equality_witness :
    (MankaiObject.number 1).mankaiEq (.number 1) = true ∧
    ((∃ q, MankaiObject.number 1 = .number q ∧ MankaiObject.number 1 = .number q) ∨
     (∃ str, MankaiObject.number 1 = .string str ∧ MankaiObject.number 1 = .string str) ∨
     (∃ b, MankaiObject.number 1 = .bool b ∧ MankaiObject.number 1 = .bool b) ∨
     (∃ l1 l2, MankaiObject.number 1 = .list l1 ∧ MankaiObject.number 1 = .list l2 ∧
       MankaiObject.listMankaiEq l1 l2 = true)) :=
  ⟨rfl, c7_value_equality.2.2.2 (.number 1) (.number 1) rfl⟩

/-- C8 counterexample: the claim says every argument sequence containing a
non-Bool operand fails with a positional type error; but on
`[Bool(false), Number(1)]` the `and` native short-circuits and returns
`Ok(Bool(false))` without ever reaching the non-Bool operand. -/
theorem c8_and_counterexample :
    and [.bool false, .number 1] = .ok (.bool false) := rfl

/-- C8 (amended): `and` returns `Bool(false)` on the first `Bool(false)`
argument (whatever follows it), `Bool(true)` when all arguments are
`Bool(true)`, and fails with a type error naming the 1-based position of a
non-Bool operand when all earlier arguments are `Bool(true)`. -/
theorem c8_and_amended :
    (∀ (k : Nat) (rest : List MankaiObject),
      and (List.replicate k (.bool true) ++ .bool false :: rest) =
        .ok (.bool false)) ∧
    (∀ k : Nat,
      and (List.replicate (k + 1) (.bool true)) = .ok (.bool true)) ∧
    (∀ (k : Nat) (v : MankaiObject) (rest : List MankaiObject),
      (∀ b, v ≠ .bool b) →
      and (List.replicate k (.bool true) ++ v :: rest) =
        .error ⟨toString (k + 1) ++ "-th argument to 'and' is not a boolean!"⟩) := by
  refine ⟨?_, ?_, ?_⟩
  · intro k rest
    have hne : (List.replicate k (MankaiObject.bool true) ++
        MankaiObject.bool false :: rest).isEmpty = false := by
      cases k <;> simp [List.replicate]
    simp only [and, hne, Bool.false_eq_true, if_false]
    rw [andLoop_true_run k 0 (.bool false :: rest)]
    rfl
  · intro k
    have hrepl : List.replicate (k + 1) (MankaiObject.bool true) =
        List.replicate (k + 1) (MankaiObject.bool true) ++ [] := by simp
    have hne : (List.replicate (k + 1) (MankaiObject.bool true)).isEmpty = false := by
      simp [List.replicate]
    simp only [and, hne, Bool.false_eq_true, if_false]
    rw [hrepl, andLoop_true_run (k + 1) 0 []]
    rfl
  · intro k v rest hv
    have hne : (List.replicate k (MankaiObject.bool true) ++
        v :: rest).isEmpty = false := by
      cases k <;> simp [List.replicate]
    simp only [and, hne, Bool.false_eq_true, if_false]
    rw [andLoop_true_run k 0 (v :: rest)]
    cases v with
    | bool b => exact absurd rfl (hv b)
    | number q => simp [andLoop]
    | string str => simp [andLoop]
    | list xs => simp [andLoop]
    | specialForm t => simp [andLoop]
    | native t => simp [andLoop]
    | function nm ps b => simp [andLoop]

/-- Witness for C8 (amended): a non-Bool operand in second position after a
single `Bool(true)` is reported at position 2. -/
theorem c8_and_amended_witness :
    (∀ b, MankaiObject.number 7 ≠ .bool b) ∧
    and (List.replicate 1 (.bool true) ++ MankaiObject.number 7 :: []) =
      .error ⟨toString (1 + 1) ++ "-th argument to 'and' is not a boolean!"⟩ :=
  ⟨fun _ h => MankaiObject.noConfusion h,
   c8_and_amended.2.2 1 (.number 7) [] (fun _ h => MankaiObject.noConfusion h)⟩

/-- C9 (code bug): the source's `to_string` renders a user-defined function
as the misspelled label `<user-defined fucntion>`, not the documented
`<user-defined function>`. -/
theorem c9_user_function_label :
    MankaiObject.toString (.function none [] (.atom ⟨"x", .identifier⟩)) =
      "<user-defined fucntion>" ∧
    "<user-defined fucntion>" ≠ "<user-defined function>" :=
  ⟨rfl, by decide⟩

/-- C10: the single-argument (reciprocal) path of `division` has no zero
guard, so it returns `Ok` for every Number argument — including zero. -/
theorem c10_division_single_argument_ok (q : Rat) :
    ∃ v, division [.number q] = Except.ok v :=
  ⟨.number (1 / q), rfl⟩

/-- C5: `division` with one Number argument returns its reciprocal (so
`(/ 4)` is `Number(0.25)`), with several Number arguments folds left-to-right
division starting from the first, and reports a divide-by-zero error naming
the 1-based position of the first zero divisor (so `(/ 1 0)` fails naming
position 2). -/
theorem c5_division :
    (division [.number 4] = .ok (.number 0.25)) ∧
    (∀ q : Rat, q ≠ 0 → division [.number q] = .ok (.number (1 / q))) ∧
    (∀ (a : Rat) (qs : List Rat), qs ≠ [] → (∀ q ∈ qs, q ≠ 0) →
      division (.number a :: qs.map .number) =
        .ok (.number (qs.foldl (· / ·) a))) ∧
    (∀ (a : Rat) (pre : List Rat) (post : List MankaiObject),
      (∀ q ∈ pre, q ≠ 0) →
      division (.number a :: (pre.map .number ++ .number 0 :: post)) =
        .error ⟨"can't divide by zero (" ++ toString (pre.length + 2) ++
                "-th argument to '/' is zero)!"⟩) ∧
    (division [.number 1, .number 0] =
      .error ⟨"can't divide by zero (2-th argument to '/' is zero)!"⟩) := by
  refine ⟨by norm_num [division], fun q _ => rfl, ?_, ?_, rfl⟩
  · intro a qs hne hz
    cases qs with
    | nil => exact absurd rfl hne
    | cons q qs' =>
        have hloop := divisionLoop_numbers (q :: qs') 1 a hz
        simp only [List.map_cons] at hloop
        simp only [List.map_cons]
        rw [division_multi, hloop]
        rfl
  · intro a pre post hz
    cases pre with
    | nil =>
        simp only [List.map_nil, List.nil_append]
        rw [division_multi]
        have := divisionLoop_zero [] 1 a post (by simp)
        simp only [List.map_nil, List.nil_append] at this
        rw [this]
        rfl
    | cons p pre' =>
        have hloop := divisionLoop_zero (p :: pre') 1 a post hz
        have heq : 1 + (p :: pre').length + 1 = (p :: pre').length + 2 := by
          simp only [List.length_cons]; omega
        rw [heq] at hloop
        simp only [List.map_cons, List.cons_append, List.append_eq] at hloop
        simp only [List.map_cons, List.cons_append]
        rw [division_multi, hloop]
        rfl

/-- Witness for C5: the reciprocal at 4, the two-argument fold at
`(/ 12 3)`, and the divide-by-zero report of `(/ 5 0)`. -/
theorem c5_division_witness :
    ((4 : Rat) ≠ 0 ∧ division [.number 4] = .ok (.number (1 / 4))) ∧
    (([3] : List Rat) ≠ [] ∧ (∀ q ∈ ([3] : List Rat), q ≠ 0) ∧
      division (.number 12 :: ([3] : List Rat).map .number) =
        .ok (.number (([3] : List Rat).foldl (· / ·) 12))) ∧
    ((∀ q ∈ ([] : List Rat), q ≠ 0) ∧
      division (.number 5 :: (([] : List Rat).map .number ++ .number 0 :: [])) =
        .error ⟨"can't divide by zero (" ++ toString (([] : List Rat).length + 2) ++
                "-th argument to '/' is zero)!"⟩) :=
  ⟨⟨by norm_num, c5_division.2.1 4 (by norm_num)⟩,
   ⟨by simp, by norm_num, c5_division.2.2.1 12 [3] (by simp) (by norm_num)⟩,
   ⟨by simp, c5_division.2.2.2.1 5 [] [] (by simp)⟩⟩

/-- C6: pushing a layer (`extend`), performing any sequence of `define`
operations, and popping (`restrict`) restores exactly the prior environment
— so a shadowed identifier looks up to its prior value again and an
identifier bound only in the inner layer is unbound again — while calling
`restrict` with only the global layer left is the modelled panic (`none`),
not a `RuntimeError`. -/
theorem c6_extend_define_restrict :
    (∀ (env : Environment) (pairs : List (Token × MankaiObject)),
      env.layers ≠ [] →
      ∃ env2, bindArguments env.extend pairs = some env2 ∧
        env2.restrict = some env) ∧
    (∀ env : Environment, env.layers.length ≤ 1 → env.restrict = none) := by
  constructor
  · intro env pairs h
    refine ⟨⟨((pairs.reverse.map fun p => (p.1.lexeme, p.2)) ++ []) ::
      env.layers⟩, ?_, ?_⟩
    · exact bindArguments_eq pairs [] env.layers
    · have hlen : 0 < env.layers.length := List.length_pos.mpr h
      simp only [Environment.restrict, List.length_cons, List.tail_cons]
      rw [if_pos (by omega)]
  · intro env h
    simp only [Environment.restrict]
    rw [if_neg (by omega)]

/-- Witness for C6: one shadowing define and one fresh define in the pushed
layer, then `restrict`, on a one-layer environment binding "x"; and the
`restrict` panic on that same global-only environment. -/
theorem c6_extend_define_restrict_witness :
    ((⟨[[("x", .number 1)]]⟩ : Environment).layers ≠ [] ∧
     ∃ env2,
       bindArguments (Environment.extend ⟨[[("x", .number 1)]]⟩)
           [(⟨"x", .identifier⟩, .number 2), (⟨"y", .identifier⟩, .number 3)] =
         some env2 ∧
       env2.restrict = some ⟨[[("x", .number 1)]]⟩) ∧
    ((⟨[[("x", .number 1)]]⟩ : Environment).layers.length ≤ 1 ∧
     (⟨[[("x", .number 1)]]⟩ : Environment).restrict = none) :=
  ⟨⟨fun h => List.noConfusion h,
    c6_extend_define_restrict.1 ⟨[[("x", .number 1)]]⟩
      [(⟨"x", .identifier⟩, .number 2), (⟨"y", .identifier⟩, .number 3)]
      (fun h => List.noConfusion h)⟩,
   ⟨by simp,
    c6_extend_define_restrict.2 ⟨[[("x", .number 1)]]⟩ (by simp)⟩⟩

/-- C3: rebinding `+` through the `define!` special form fails with the
reserved-name error for the native-function category (before evaluating the
value expression), while the unguarded `set!` special form performs the same
rebinding, returns the bound value, and leaves the binding visible. -/
theorem c3_define_guarded_set_unguarded :
    (define 5 Interpreter.new
        [.atom ⟨"+", .identifier⟩, .atom ⟨"1", .number 1⟩] =
      (.err ⟨"can't assign to '+' because the name is reserved for a native function!"⟩,
       Interpreter.new)) ∧
    ((set 5 Interpreter.new
        [.atom ⟨"+", .identifier⟩, .atom ⟨"1", .number 1⟩]).1 =
      .ok (.number 1)) ∧
    (((set 5 Interpreter.new
        [.atom ⟨"+", .identifier⟩, .atom ⟨"1", .number 1⟩]).2).environment.get
        ⟨"+", .identifier⟩ = .ok (.number 1)) :=
  ⟨rfl, rfl, rfl⟩

/-- C2: `if!` fails unless given exactly three unevaluated sub-expressions;
a non-Bool condition fails with the must-evaluate-to-a-boolean error; a
`Bool(true)` condition makes the result exactly the then-branch evaluation,
for every else-branch (so the untaken branch is never evaluated), and
symmetrically for `Bool(false)`; finally `(if! true "a" probe)` with an
unbound-identifier probe as else-branch yields `String("a")` without
raising. -/
theorem c2_if_special_form :
    (∀ (n : Nat) (s : Interpreter) (args : List Sexp),
      args.length ≠ 3 →
      ifSpecialForm (n + 1) s args =
        (.err ⟨"'if!' requires exactly three arguments!"⟩, s)) ∧
    (∀ (n : Nat) (s s1 : Interpreter) (c t e : Sexp) (v : MankaiObject),
      evaluate n s c = (.ok v, s1) → (∀ b, v ≠ .bool b) →
      ifSpecialForm (n + 1) s [c, t, e] =
        (.err ⟨"1st argument to 'if!' must evaluate to a boolean!"⟩, s1)) ∧
    (∀ (n : Nat) (s s1 : Interpreter) (c t e : Sexp),
      evaluate n s c = (.ok (.bool true), s1) →
      ifSpecialForm (n + 1) s [c, t, e] = evaluate n s1 t) ∧
    (∀ (n : Nat) (s s1 : Interpreter) (c t e : Sexp),
      evaluate n s c = (.ok (.bool false), s1) →
      ifSpecialForm (n + 1) s [c, t, e] = evaluate n s1 e) ∧
    ((evaluate 10 Interpreter.new
        (.list [.atom ⟨"if!", .identifier⟩, .atom ⟨"true", .identifier⟩,
                .atom ⟨"a", .string "a"⟩,
                .atom ⟨"undefined-probe", .identifier⟩])).1 =
      .ok (.string "a")) := by
  refine ⟨?_, ?_, ?_, ?_, rfl⟩
  · intro n s args h
    rcases args with _ | ⟨a, _ | ⟨b, _ | ⟨c, _ | ⟨d, rest⟩⟩⟩⟩
    · rfl
    · rfl
    · rfl
    · exact absurd rfl h
    · rfl
  · intro n s s1 c t e v hev hv
    cases v with
    | bool b => exact absurd rfl (hv b)
    | number q => simp [ifSpecialForm, hev]
    | string str => simp [ifSpecialForm, hev]
    | list xs => simp [ifSpecialForm, hev]
    | specialForm tg => simp [ifSpecialForm, hev]
    | native tg => simp [ifSpecialForm, hev]
    | function nm ps b => simp [ifSpecialForm, hev]
  · intro n s s1 c t e hev
    simp [ifSpecialForm, hev]
  · intro n s s1 c t e hev
    simp [ifSpecialForm, hev]

/-- Witness for C2: the arity error on no sub-expressions, the non-Bool
condition error on a Number literal condition, and both branch selections on
the `true`/`false` constants of the fresh interpreter. -/
theorem c2_if_special_form_witness :
    (([] : List Sexp).length ≠ 3 ∧
     ifSpecialForm 4 Interpreter.new [] =
       (.err ⟨"'if!' requires exactly three arguments!"⟩, Interpreter.new)) ∧
    (evaluate 3 Interpreter.new (.atom ⟨"7", .number 7⟩) =
       (.ok (.number 7), Interpreter.new) ∧
     (∀ b, MankaiObject.number 7 ≠ .bool b) ∧
     ifSpecialForm 4 Interpreter.new
         [.atom ⟨"7", .number 7⟩, .atom ⟨"a", .string "a"⟩, .atom ⟨"b", .string "b"⟩] =
       (.err ⟨"1st argument to 'if!' must evaluate to a boolean!"⟩, Interpreter.new)) ∧
    (evaluate 3 Interpreter.new (.atom ⟨"true", .identifier⟩) =
       (.ok (.bool true), Interpreter.new) ∧
     ifSpecialForm 4 Interpreter.new
         [.atom ⟨"true", .identifier⟩, .atom ⟨"a", .string "a"⟩, .atom ⟨"b", .string "b"⟩] =
       evaluate 3 Interpreter.new (.atom ⟨"a", .string "a"⟩)) ∧
    (evaluate 3 Interpreter.new (.atom ⟨"false", .identifier⟩) =
       (.ok (.bool false), Interpreter.new) ∧
     ifSpecialForm 4 Interpreter.new
         [.atom ⟨"false", .identifier⟩, .atom ⟨"a", .string "a"⟩, .atom ⟨"b", .string "b"⟩] =
       evaluate 3 Interpreter.new (.atom ⟨"b", .string "b"⟩)) :=
  ⟨⟨by decide,
    c2_if_special_form.1 3 Interpreter.new [] (by decide)⟩,
   ⟨rfl, fun _ h => MankaiObject.noConfusion h,
    c2_if_special_form.2.1 3 Interpreter.new Interpreter.new
      (.atom ⟨"7", .number 7⟩) (.atom ⟨"a", .string "a"⟩) (.atom ⟨"b", .string "b"⟩)
      (.number 7) rfl (fun _ h => MankaiObject.noConfusion h)⟩,
   ⟨rfl,
    c2_if_special_form.2.2.1 3 Interpreter.new Interpreter.new
      (.atom ⟨"true", .identifier⟩) (.atom ⟨"a", .string "a"⟩)
      (.atom ⟨"b", .string "b"⟩) rfl⟩,
   ⟨rfl,
    c2_if_special_form.2.2.2.1 3 Interpreter.new Interpreter.new
      (.atom ⟨"false", .identifier⟩) (.atom ⟨"a", .string "a"⟩)
      (.atom ⟨"b", .string "b"⟩) rfl⟩⟩

/-- C4: `((lambda! (x y) (+ x y)) 1 2)` evaluates to `Number(3)`; the same
application with 1 or 3 arguments fails with the arity error naming the
found count, the required count and "anonymous function"; and in general a
user-defined call with a wrong argument count fails naming both counts and
the function's name or "anonymous function". -/
theorem c4_lambda_call_arity :
    ((evaluate 20 Interpreter.new
        (.list [lamXY, .atom ⟨"1", .number 1⟩, .atom ⟨"2", .number 2⟩])).1 =
      .ok (.number 3)) ∧
    ((evaluate 20 Interpreter.new
        (.list [lamXY, .atom ⟨"1", .number 1⟩])).1 =
      .err ⟨"found 1 arguments but 'anonymous function' requires 2!"⟩) ∧
    ((evaluate 20 Interpreter.new
        (.list [lamXY, .atom ⟨"1", .number 1⟩, .atom ⟨"2", .number 2⟩,
                .atom ⟨"3", .number 3⟩])).1 =
      .err ⟨"found 3 arguments but 'anonymous function' requires 2!"⟩) ∧
    (∀ (n : Nat) (s : Interpreter) (name : Option String) (ps : List Token)
       (body : Sexp) (args : List MankaiObject),
      ps.length ≠ args.length →
      call (n + 1) s (.function name ps body) args =
        (.err ⟨"found " ++ toString args.length ++ " arguments but '" ++
               name.getD "anonymous function" ++ "' requires " ++
               toString ps.length ++ "!"⟩, s)) := by
  refine ⟨by with_unfolding_all rfl, rfl, rfl, ?_⟩
  intro n s name ps body args h
  simp [call, h]

/-- Witness for C4's general arity conjunct: a parameterless anonymous
function applied to one argument. -/
theorem c4_lambda_call_arity_witness :
    ([] : List Token).length ≠ [MankaiObject.number 1].length ∧
    call 1 Interpreter.new (.function none [] (.atom ⟨"x", .identifier⟩))
        [.number 1] =
      (.err ⟨"found 1 arguments but 'anonymous function' requires 0!"⟩,
       Interpreter.new) :=
  ⟨by decide,
   c4_lambda_call_arity.2.2.2 0 Interpreter.new none []
     (.atom ⟨"x", .identifier⟩) [.number 1] (by decide)⟩

/-- C1: a user-defined call with matching arity pushes exactly one new
layer, binds each parameter identifier positionally to the corresponding
evaluated argument in that layer (later duplicates shadowing earlier ones,
as with the source's `HashMap` insert), evaluates the body against the
extended environment and propagates its outcome — value or error — while the
layer-stack depth after the call equals the depth before it. -/
theorem c1_user_call_depth_restored :
    ∀ (n : Nat) (s : Interpreter) (name : Option String) (ps : List Token)
      (body : Sexp) (args : List MankaiObject),
      0 < s.depth →
      ps.length = args.length →
      ∃ envB : Environment,
        bindArguments s.environment.extend (ps.zip args) = some envB ∧
        envB.layers =
          ((ps.zip args).reverse.map fun p => (p.1.lexeme, p.2)) ::
            s.environment.layers ∧
        (call (n + 1) s (.function name ps body) args).1 =
          (evaluate n { s with environment := envB } body).1 ∧
        ((call (n + 1) s (.function name ps body) args).2).depth = s.depth := by
  intro n s name ps body args hd harity
  have hd' : 0 < s.environment.layers.length := hd
  have hext : s.environment.extend = ⟨[] :: s.environment.layers⟩ := rfl
  have hbind := bindArguments_eq (ps.zip args) [] s.environment.layers
  refine ⟨⟨(((ps.zip args).reverse.map fun p => (p.1.lexeme, p.2)) ++ []) ::
    s.environment.layers⟩, ?_, by simp, ?_, ?_⟩
  · rw [hext]; exact hbind
  all_goals
    simp only [call]
    rw [if_neg (by omega : ¬ ps.length ≠ args.length)]
    rw [hext, hbind]
    simp only
    rcases h2 : evaluate n
        { s with environment :=
            ⟨(((ps.zip args).reverse.map fun p => (p.1.lexeme, p.2)) ++ []) ::
              s.environment.layers⟩ } body with ⟨r2, s3⟩
    have d2 : s3.environment.layers.length =
        s.environment.layers.length + 1 := by
      have := (depthPreserved n).1
        { s with environment :=
            ⟨(((ps.zip args).reverse.map fun p => (p.1.lexeme, p.2)) ++ []) ::
              s.environment.layers⟩ } body (by simp [Interpreter.depth])
      rw [h2] at this
      simpa [Interpreter.depth] using this
    obtain ⟨env4, hres, hlen⟩ :=
      s3.environment.restrict_of_two_le (by omega)
    rw [hres]
  show env4.layers.length = s.environment.layers.length
  omega

/-- Witness for C1: the identity-style call `((lambda (x) x) 7)` on the
fresh interpreter. -/
theorem c1_user_call_depth_restored_witness :
    0 < Interpreter.new.depth ∧
    ([(⟨"x", .identifier⟩ : Token)] : List Token).length =
      [MankaiObject.number 7].length ∧
    ∃ envB : Environment,
      bindArguments Interpreter.new.environment.extend
          (([(⟨"x", .identifier⟩ : Token)]).zip [MankaiObject.number 7]) =
        some envB ∧
      envB.layers =
        ((([(⟨"x", .identifier⟩ : Token)]).zip
            [MankaiObject.number 7]).reverse.map fun p => (p.1.lexeme, p.2)) ::
          Interpreter.new.environment.layers ∧
      (call 6 Interpreter.new
          (.function none [⟨"x", .identifier⟩] (.atom ⟨"x", .identifier⟩))
          [.number 7]).1 =
        (evaluate 5 { Interpreter.new with environment := envB }
          (.atom ⟨"x", .identifier⟩)).1 ∧
      ((call 6 Interpreter.new
          (.function none [⟨"x", .identifier⟩] (.atom ⟨"x", .identifier⟩))
          [.number 7]).2).depth = Interpreter.new.depth :=
  ⟨by decide, by decide,
   c1_user_call_depth_restored 5 Interpreter.new none [⟨"x", .identifier⟩]
     (.atom ⟨"x", .identifier⟩) [.number 7] (by decide) (by decide)⟩

end Mankai
